import Mathlib

set_option maxHeartbeats 1000000

/- Shallow embedding of the MySQL connection pool `mysqlxx::Pool` from
   `libs/libmysqlxx/include/mysqlxx/Pool.h`.

   The driver (connect / ping / query execution) and the process environment
   (shutdown predicate) are external collaborators; they are modelled as
   oracles: a `Driver` assigns an outcome to the n-th connect call, the n-th
   ping, and the n-th execution of the initialization statement, and a `World`
   counts how many of each have happened.  Exceptions become an `Except` value,
   and since C++ exceptions leave already-performed member mutations in place,
   every operation returns the final pool state alongside the `Except` result.
   Sleeps, yields and lock operations are recorded as an event trace. -/

deriving instance DecidableEq for Except

/-- MySQL error code `ER_ACCESS_DENIED_ERROR` from `mysqld_error.h`. -/
def ER_ACCESS_DENIED_ERROR : Nat := 1045

/-- MySQL error code `ER_DBACCESS_DENIED_ERROR` from `mysqld_error.h`. -/
def ER_DBACCESS_DENIED_ERROR : Nat := 1044

/-- MySQL error code `ER_BAD_DB_ERROR` from `mysqld_error.h`. -/
def ER_BAD_DB_ERROR : Nat := 1049

/-- The constant `MYSQLXX_POOL_SLEEP_ON_CONNECT_FAIL` (seconds). -/
def MYSQLXX_POOL_SLEEP_ON_CONNECT_FAIL : Nat := 10

/-- Outcome of one call to `mysqlxx::Connection::connect`: success, or a
`mysqlxx::ConnectionFailed` exception carrying a numeric `errnum`. -/
inductive ConnectResult where
  | ok : ConnectResult
  | fail (errnum : Nat) : ConnectResult
deriving DecidableEq

/-- The external collaborators of the pool, as oracles: `connectResult k` is the
outcome of the k-th connect call, `execOk k` whether the k-th execution of the
`InitConnect` statement succeeds, `pingOk k` the result of the k-th ping, and
`cancelled` the daemon shutdown predicate `Daemon::instance().isCancelled()`. -/
structure Driver where
  connectResult : Nat → ConnectResult
  execOk : Nat → Bool
  pingOk : Nat → Bool
  cancelled : Bool

/-- Counters of how many driver calls of each kind have happened so far. -/
structure World where
  connects : Nat
  execs : Nat
  pings : Nat
deriving DecidableEq

/-- Exceptions that can escape the pool code: a re-raised
`mysqlxx::ConnectionFailed` with its errnum, the `Poco::Exception` raised on
shutdown during connect, the `Poco::Exception` "mysqlxx::Pool is full", the
`Poco::RuntimeException` on dereferencing a NULL entry, and a failure of the
initialization query in `afterConnect`. -/
inductive PoolError where
  | connectionFailed (errnum : Nat) : PoolError
  | daemonCancelled : PoolError
  | poolFull : PoolError
  | nullAccess : PoolError
  | queryFailed : PoolError
deriving DecidableEq

/-- Observable scheduling / timing events emitted by the pool code. -/
inductive Event where
  | sleep (seconds : Nat) : Event
  | yieldCpu : Event
  | unlock : Event
  | lock : Event
  | logReconnect : Event
  | afterConnectRun : Event
deriving DecidableEq

/-- One `Pool::Connection` (a Slot): a driver session identified by a stable
id (the address of the heap object in the C++ code) plus `int ref_count`,
initialized to 0 by the constructor. -/
structure PoolConn where
  id : Nat
  ref_count : Int
deriving DecidableEq

/-- The `mysqlxx::Pool` object state: the fields of the C++ class.  `nextId`
models the allocator handing out fresh addresses for `new Connection()`. -/
structure Pool where
  DefaultConnections : Nat
  MaxConnections : Nat
  InitConnect : String
  Initialized : Bool
  Connections : List PoolConn
  config_name : String
  description : String
  was_successful : Bool
  nextId : Nat
deriving DecidableEq

/-- The configuration store's values under `config_name`: `.db` (optional,
defaults to the empty string), `.host`, `.port`, `.user`. -/
structure Config where
  db : String
  host : String
  port : String
  user : String
deriving DecidableEq

/-- The `Pool` constructor: records policy, opens no connections. -/
def mkPool (config_name : String) (DefConn : Nat) (MaxConn : Nat)
    (InitConnect : String) : Pool :=
  { DefaultConnections := DefConn
    MaxConnections := MaxConn
    InitConnect := InitConnect
    Initialized := false
    Connections := []
    config_name := config_name
    description := ""
    was_successful := false
    nextId := 0 }

/-- The data pointer held by a `Pool::Entry`: the id of a Slot, or NULL. -/
abbrev EntryData := Option Nat

/-- Adjust by `k` the `ref_count` of the Slot with id `i` in a Slot list
(the C++ code does this through the raw pointer held by an `Entry`). -/
def bumpRef (l : List PoolConn) (i : Nat) (k : Int) : List PoolConn :=
  l.map (fun c => if c.id = i then { c with ref_count := c.ref_count + k } else c)

/-- Scan of the Slot list for the first Slot whose `ref_count` is 0, as in the
loops of `Pool::Get` and `Pool::tryGet`. -/
def Pool.findIdle (st : Pool) : Option PoolConn :=
  st.Connections.find? (fun c => c.ref_count == 0)

/-- The predicate on `errnum` that `Pool::AllocConnection` treats as fatal. -/
def fatalErrno (n : Nat) : Bool :=
  n == ER_ACCESS_DENIED_ERROR || n == ER_DBACCESS_DENIED_ERROR || n == ER_BAD_DB_ERROR

/-- The body of `Pool::afterConnect`: if `InitConnect` is non-empty, run it as a
query; a failure of the query propagates as an exception. -/
def Pool.afterConnect (st : Pool) (d : Driver) (w : World) :
    World × Except PoolError Unit :=
  if st.InitConnect = "" then
    (w, Except.ok ())
  else
    let ok := d.execOk w.execs
    let w1 : World := { w with execs := w.execs + 1 }
    if ok then (w1, Except.ok ()) else (w1, Except.error PoolError.queryFailed)

/-- The body of `Pool::AllocConnection(dont_throw_if_failed_first_time)`:
allocate a fresh `Connection`, try to connect; on success set `was_successful`,
run `afterConnect`, append the Slot and return it; on `ConnectionFailed` either
re-raise (cold start without suppression, or a fatal errnum), or raise on
shutdown, or return NULL. -/
def Pool.allocConnection (st : Pool) (d : Driver) (w : World)
    (dont_throw_if_failed_first_time : Bool) :
    Pool × World × Except PoolError (Option PoolConn) :=
  let conn : PoolConn := { id := st.nextId, ref_count := 0 }
  let st1 : Pool := { st with nextId := st.nextId + 1 }
  match d.connectResult w.connects with
  | ConnectResult.ok =>
    let w1 : World := { w with connects := w.connects + 1 }
    let st2 : Pool := { st1 with was_successful := true }
    match st2.afterConnect d w1 with
    | (w2, Except.ok _) =>
      ({ st2 with Connections := st2.Connections ++ [conn] }, w2, Except.ok (some conn))
    | (w2, Except.error e) => (st2, w2, Except.error e)
  | ConnectResult.fail errnum =>
    let w1 : World := { w with connects := w.connects + 1 }
    if (!st1.was_successful && !dont_throw_if_failed_first_time) || fatalErrno errnum then
      (st1, w1, Except.error (PoolError.connectionFailed errnum))
    else if d.cancelled then
      (st1, w1, Except.error PoolError.daemonCancelled)
    else
      (st1, w1, Except.ok none)

/-- The `for (unsigned i = 0; i < DefaultConnections; i++) AllocConnection();`
loop of `Pool::Initialize`: return values are discarded, exceptions abort
the loop. -/
def Pool.initLoop (d : Driver) : Nat → Pool → World →
    Pool × World × Except PoolError Unit
  | 0, st, w => (st, w, Except.ok ())
  | Nat.succ m, st, w =>
    match st.allocConnection d w false with
    | (st1, w1, Except.error e) => (st1, w1, Except.error e)
    | (st1, w1, Except.ok _) => Pool.initLoop d m st1 w1

/-- The body of `Pool::Initialize`: if not yet initialized, compose the
`description` string from the configuration, open `DefaultConnections`
connections, then set `Initialized`.  (The C++ member is named `Initialize`.) -/
def Pool.initAll (st : Pool) (cfg : Config) (d : Driver) (w : World) :
    Pool × World × Except PoolError Unit :=
  if st.Initialized then (st, w, Except.ok ())
  else
    let st1 : Pool := { st with
      description := cfg.db ++ "@" ++ cfg.host ++ ":" ++ cfg.port ++ " as user " ++ cfg.user }
    match Pool.initLoop d st.DefaultConnections st1 w with
    | (st2, w2, Except.error e) => (st2, w2, Except.error e)
    | (st2, w2, Except.ok _) => ({ st2 with Initialized := true }, w2, Except.ok ())

/-- Result of the `for (;;)` loop in `Pool::Get`: an `Entry` (whose data
pointer the C++ code always sets to a real Slot), or exhaustion of the fuel
bounding our model of the unbounded loop. -/
inductive GetOutcome where
  | ret (e : EntryData) : GetOutcome
  | fuelOut : GetOutcome
deriving DecidableEq

/-- The `for (;;)` loop of `Pool::Get`: scan for an idle Slot (returning an
`Entry` increments the Slot's ref count); otherwise grow the pool if below
`MaxConnections`; otherwise (or if the allocation returned NULL) release the
lock, yield, sleep `MYSQLXX_POOL_SLEEP_ON_CONNECT_FAIL` seconds, re-lock and
retry. -/
def Pool.getLoop (d : Driver) : Nat → Pool → World → List Event →
    Pool × World × List Event × Except PoolError GetOutcome
  | 0, st, w, evs => (st, w, evs, Except.ok GetOutcome.fuelOut)
  | Nat.succ m, st, w, evs =>
    match st.findIdle with
    | some c =>
      ({ st with Connections := bumpRef st.Connections c.id 1 }, w, evs,
        Except.ok (GetOutcome.ret (some c.id)))
    | none =>
      if st.Connections.length < st.MaxConnections then
        match st.allocConnection d w false with
        | (st1, w1, Except.error e) => (st1, w1, evs, Except.error e)
        | (st1, w1, Except.ok (some conn)) =>
          ({ st1 with Connections := bumpRef st1.Connections conn.id 1 }, w1, evs,
            Except.ok (GetOutcome.ret (some conn.id)))
        | (st1, w1, Except.ok none) =>
          Pool.getLoop d m st1 w1
            (evs ++ [Event.unlock, Event.yieldCpu,
              Event.sleep MYSQLXX_POOL_SLEEP_ON_CONNECT_FAIL, Event.lock])
      else
        Pool.getLoop d m st w
          (evs ++ [Event.unlock, Event.yieldCpu,
            Event.sleep MYSQLXX_POOL_SLEEP_ON_CONNECT_FAIL, Event.lock])

/-- `Pool::Get`: take the mutex, run `Initialize`, then the retry loop. -/
def Pool.Get (st : Pool) (cfg : Config) (d : Driver) (fuel : Nat) (w : World) :
    Pool × World × List Event × Except PoolError GetOutcome :=
  match st.initAll cfg d w with
  | (st1, w1, Except.error e) => (st1, w1, [], Except.error e)
  | (st1, w1, Except.ok _) => Pool.getLoop d fuel st1 w1 []

/-- `Pool::tryGet`: take the mutex, run `Initialize`; return the first idle
Slot if its plain ping succeeds (`Entry res(*it, this)` increments the ref
count; when the ping fails, `res` is destroyed again and an empty `Entry` is
returned); throw "mysqlxx::Pool is full" at capacity; otherwise allocate with
`dont_throw_if_failed_first_time = true`. -/
def Pool.tryGet (st : Pool) (cfg : Config) (d : Driver) (w : World) :
    Pool × World × Except PoolError EntryData :=
  match st.initAll cfg d w with
  | (st1, w1, Except.error e) => (st1, w1, Except.error e)
  | (st1, w1, Except.ok _) =>
    match st1.findIdle with
    | some c =>
      let stInc : Pool := { st1 with Connections := bumpRef st1.Connections c.id 1 }
      let pok := d.pingOk w1.pings
      let w2 : World := { w1 with pings := w1.pings + 1 }
      if pok then (stInc, w2, Except.ok (some c.id))
      else ({ stInc with Connections := bumpRef stInc.Connections c.id (-1) }, w2,
        Except.ok none)
    | none =>
      if st1.MaxConnections ≤ st1.Connections.length then
        (st1, w1, Except.error PoolError.poolFull)
      else
        match st1.allocConnection d w1 true with
        | (st2, w2, Except.error e) => (st2, w2, Except.error e)
        | (st2, w2, Except.ok (some conn)) =>
          ({ st2 with Connections := bumpRef st2.Connections conn.id 1 }, w2,
            Except.ok (some conn.id))
        | (st2, w2, Except.ok none) => (st2, w2, Except.ok none)

/-- A client-visible pool operation: a blocking `Get` (with the fuel bounding
its retry loop), a non-blocking `tryGet`, or the destruction of a previously
returned `Entry` bound to Slot `i` (which decrements that Slot's ref count). -/
inductive PoolOp where
  | get (fuel : Nat) : PoolOp
  | tryget : PoolOp
  | release (i : Nat) : PoolOp
deriving DecidableEq

/-- Run a sequence of pool operations, threading the pool state and the world
counters; results and exceptions are discarded (the state they leave behind is
what the capacity claims are about). -/
def runOps (cfg : Config) (d : Driver) : List PoolOp → Pool → World → Pool × World
  | [], st, w => (st, w)
  | PoolOp.get fuel :: ops, st, w =>
    let r := st.Get cfg d fuel w
    runOps cfg d ops r.1 r.2.1
  | PoolOp.tryget :: ops, st, w =>
    let r := st.tryGet cfg d w
    runOps cfg d ops r.1 r.2.1
  | PoolOp.release i :: ops, st, w =>
    runOps cfg d ops { st with Connections := bumpRef st.Connections i (-1) } w

/-- The reconnect loop of `Pool::Entry::ForceConnected`, entered when the
initial ping failed: `do { if (first) first = false; else sleep(5);
log("Reconnecting"); connect(config_name); } while (!ping());` followed by
`pool->afterConnect(...)`.  Exceptions from `connect` propagate unchanged;
the unbounded loop is modelled with fuel. -/
def Pool.fcLoop (st : Pool) (d : Driver) : Nat → Bool → World → List Event →
    Option (World × List Event × Except PoolError Unit)
  | 0, _, _, _ => none
  | Nat.succ m, first, w, evs =>
    let evs1 := (if first then evs else evs ++ [Event.sleep 5]) ++ [Event.logReconnect]
    match d.connectResult w.connects with
    | ConnectResult.fail n =>
      some ({ w with connects := w.connects + 1 }, evs1,
        Except.error (PoolError.connectionFailed n))
    | ConnectResult.ok =>
      let w1 : World := { w with connects := w.connects + 1 }
      if d.pingOk w1.pings then
        let w2 : World := { w1 with pings := w1.pings + 1 }
        match st.afterConnect d w2 with
        | (w3, r) => some (w3, evs1 ++ [Event.afterConnectRun], r)
      else
        Pool.fcLoop st d m false { w1 with pings := w1.pings + 1 } evs1

/-- `Pool::Entry::ForceConnected`: return at once if the session pings;
otherwise run the reconnect loop. -/
def Pool.forceConnected (st : Pool) (d : Driver) (fuel : Nat) (w : World) :
    Option (World × List Event × Except PoolError Unit) :=
  if d.pingOk w.pings then
    some ({ w with pings := w.pings + 1 }, [], Except.ok ())
  else
    Pool.fcLoop st d fuel true { w with pings := w.pings + 1 } []

/-- Dereference of a `Pool::Entry` (`operator->` / `operator Connection &`):
throw on a NULL data pointer, otherwise `ForceConnected` and return the
address of the session (here: the Slot id). -/
def Pool.entryAccess (st : Pool) (d : Driver) (e : EntryData) (fuel : Nat)
    (w : World) : Option (World × List Event × Except PoolError Nat) :=
  match e with
  | none => some (w, [], Except.error PoolError.nullAccess)
  | some i =>
    match st.forceConnected d fuel w with
    | none => none
    | some (w1, evs, Except.ok _) => some (w1, evs, Except.ok i)
    | some (w1, evs, Except.error er) => some (w1, evs, Except.error er)

/- Standalone model of the lifetime discipline of `Pool::Entry` objects (the
Handles).  A heap of live `Entry` objects is a list of (object id, data
pointer) pairs; Slot ref counts are a function from Slot id to `int`.  The
operations mirror the C++ special member functions: default construction,
construction from a Slot (`Entry(Pool::Connection *, Pool *)`), copy
construction, copy assignment (`operator=`), and destruction. -/

/-- An operation on `Pool::Entry` objects.  `mkEmpty`, `mkSlot` and `copy`
construct a fresh `Entry` (its id is the next free one); `assign dst src` is
`dst = src`; `destroy h` runs the destructor of `Entry` `h`. -/
inductive HOp where
  | mkEmpty : HOp
  | mkSlot (s : Nat) : HOp
  | copy (h : Nat) : HOp
  | assign (dst src : Nat) : HOp
  | destroy (h : Nat) : HOp
deriving DecidableEq

/-- The heap of live `Entry` objects plus the Slots' ref counts. -/
structure HHeap where
  handles : List (Nat × EntryData)
  refs : Nat → Int
  nextH : Nat

/-- Look up the data pointer of the live `Entry` with id `h`. -/
def hfind (hs : List (Nat × EntryData)) (h : Nat) : Option EntryData :=
  (hs.find? (fun p => p.1 == h)).map Prod.snd

/-- Apply `++data->ref_count` (k = 1) or `--data->ref_count` (k = -1) through a
data pointer: a NULL pointer leaves all ref counts unchanged. -/
def bumpH (r : Nat → Int) (e : EntryData) (k : Int) : Nat → Int :=
  match e with
  | none => r
  | some s => fun x => if x = s then r x + k else r x

/-- One step of the `Entry` lifetime model.  `none` marks an invalid operation
(using an `Entry` id that is not live), which cannot happen in the C++ code.
The copy constructor increments through the copied data pointer; `operator=`
first decrements through the old pointer, then reads the source's pointer
(unchanged by that decrement, also under self-assignment) and increments
through it; the destructor decrements and removes the object. -/
def hstep (st : HHeap) : HOp → Option HHeap
  | HOp.mkEmpty =>
    some { st with handles := (st.nextH, none) :: st.handles, nextH := st.nextH + 1 }
  | HOp.mkSlot s =>
    some { handles := (st.nextH, some s) :: st.handles,
           refs := bumpH st.refs (some s) 1, nextH := st.nextH + 1 }
  | HOp.copy h =>
    match hfind st.handles h with
    | none => none
    | some e =>
      some { handles := (st.nextH, e) :: st.handles,
             refs := bumpH st.refs e 1, nextH := st.nextH + 1 }
  | HOp.assign dst src =>
    match hfind st.handles dst, hfind st.handles src with
    | some eOld, some eNew =>
      some { st with
        handles := (dst, eNew) :: st.handles.eraseP (fun p => p.1 == dst),
        refs := bumpH (bumpH st.refs eOld (-1)) eNew 1 }
    | _, _ => none
  | HOp.destroy h =>
    match hfind st.handles h with
    | none => none
    | some e =>
      some { st with
        handles := st.handles.eraseP (fun p => p.1 == h),
        refs := bumpH st.refs e (-1) }

/-- The empty heap: no live `Entry`, every Slot ref count 0. -/
def hinit : HHeap :=
  { handles := [], refs := fun _ => 0, nextH := 0 }

/-- Run a sequence of `Entry` operations from a heap. -/
def hrun : List HOp → HHeap → Option HHeap
  | [], st => some st
  | op :: ops, st => (hstep st op).bind (hrun ops)

/-- The number of live `Entry` objects whose data pointer is Slot `s`. -/
def countRefs (hs : List (Nat × EntryData)) (s : Nat) : Int :=
  ((hs.filter (fun p => p.2 == some s)).length : Int)

/- Concrete configurations, drivers and states used to instantiate the
theorems below on closed inputs. -/

/-- A configuration whose entries are all the empty string. -/
def cfg0 : Config := { db := "", host := "", port := "", user := "" }

/-- The world before any driver call. -/
def w0 : World := { connects := 0, execs := 0, pings := 0 }

/-- A driver whose every call succeeds. -/
def dAllOk : Driver :=
  { connectResult := fun _ => ConnectResult.ok
    execOk := fun _ => true
    pingOk := fun _ => true
    cancelled := false }

/-- A driver whose first connect succeeds and whose later connects fail with
the non-fatal code 2002 (`CR_CONNECTION_ERROR`). -/
def dOkThenFail : Driver :=
  { connectResult := fun k => if k = 0 then ConnectResult.ok else ConnectResult.fail 2002
    execOk := fun _ => true
    pingOk := fun _ => true
    cancelled := false }

/-- A driver that always fails connect with `ER_ACCESS_DENIED_ERROR`. -/
def dDenied : Driver :=
  { connectResult := fun _ => ConnectResult.fail ER_ACCESS_DENIED_ERROR
    execOk := fun _ => true
    pingOk := fun _ => true
    cancelled := false }

/-- A driver whose connects succeed but whose second execution of the
initialization statement fails. -/
def dExecFails : Driver :=
  { connectResult := fun _ => ConnectResult.ok
    execOk := fun k => k == 0
    pingOk := fun _ => true
    cancelled := false }

/-- A driver whose connects succeed but whose pings always fail. -/
def dPingFail : Driver :=
  { connectResult := fun _ => ConnectResult.ok
    execOk := fun _ => true
    pingOk := fun _ => false
    cancelled := false }

/-- The pool `mkPool "" 1 2 "q"` after a first `Get` whose `Entry` is still
held: one Slot with ref count 1, initialized, with a lifetime success. -/
def stHeld : Pool := ((mkPool "" 1 2 "q").Get cfg0 dExecFails 1 w0).1

/-- The world counters after that first `Get`. -/
def wHeld : World := ((mkPool "" 1 2 "q").Get cfg0 dExecFails 1 w0).2.1

/-- An initialized pool holding one idle Slot. -/
def stOneIdle : Pool :=
  { DefaultConnections := 1
    MaxConnections := 4
    InitConnect := ""
    Initialized := true
    Connections := [{ id := 0, ref_count := 0 }]
    config_name := ""
    description := ""
    was_successful := true
    nextId := 1 }

/-- An initialized pool at capacity 1 holding one busy Slot. -/
def stOneBusy : Pool :=
  { DefaultConnections := 1
    MaxConnections := 1
    InitConnect := ""
    Initialized := true
    Connections := [{ id := 0, ref_count := 1 }]
    config_name := ""
    description := ""
    was_successful := true
    nextId := 1 }

/-- A driver whose pings fail and whose connects fail with the non-fatal
code 2002. -/
def dDead : Driver :=
  { connectResult := fun _ => ConnectResult.fail 2002
    execOk := fun _ => true
    pingOk := fun _ => false
    cancelled := false }

/-- A concrete `Entry` lifetime history: construct from Slot 3, copy it,
self-assign the copy, default-construct an empty `Entry`, destroy all three. -/
def opsW : List HOp :=
  [HOp.mkSlot 3, HOp.copy 0, HOp.assign 1 1, HOp.mkEmpty,
   HOp.destroy 0, HOp.destroy 1, HOp.destroy 2]

/-- The heap after running `opsW` from the empty heap. -/
def stW : HHeap := (hrun opsW hinit).getD hinit

/- Helper lemmas. -/

/-- Decrementing after incrementing a Slot ref count through the same id is
the identity on one Slot. -/
theorem bumpRef_point (i : Nat) (c : PoolConn) :
    (fun c => if c.id = i then { c with ref_count := c.ref_count + (-1) } else c)
      ((fun c => if c.id = i then { c with ref_count := c.ref_count + 1 } else c) c) = c := by
  cases c with
  | mk cid rc => by_cases h : cid = i <;> simp [h]

/-- Bumping a ref count up and back down through the same Slot id restores the
Slot list. -/
theorem bumpRef_cancel (l : List PoolConn) (i : Nat) :
    bumpRef (bumpRef l i 1) i (-1) = l := by
  unfold bumpRef
  rw [List.map_map]
  exact List.map_id'' (bumpRef_point i) l

/-- Bumping a ref count does not change the length of the Slot list. -/
theorem bumpRef_length (l : List PoolConn) (i : Nat) (k : Int) :
    (bumpRef l i k).length = l.length := by
  simp [bumpRef]

/-- `Initialize` on an already-initialized pool does nothing. -/
theorem initAll_skip (st : Pool) (cfg : Config) (d : Driver) (w : World)
    (h : st.Initialized = true) :
    st.initAll cfg d w = (st, w, Except.ok ()) := by
  simp [Pool.initAll, h]

/-- `AllocConnection` preserves the policy fields, the `Initialized` flag and
the description of the pool. -/
theorem alloc_fields (st : Pool) (d : Driver) (w : World) (b : Bool) :
    (st.allocConnection d w b).1.MaxConnections = st.MaxConnections
  ∧ (st.allocConnection d w b).1.DefaultConnections = st.DefaultConnections
  ∧ (st.allocConnection d w b).1.Initialized = st.Initialized
  ∧ (st.allocConnection d w b).1.InitConnect = st.InitConnect
  ∧ (st.allocConnection d w b).1.description = st.description
  ∧ (st.allocConnection d w b).1.config_name = st.config_name := by
  unfold Pool.allocConnection Pool.afterConnect
  cases d.connectResult w.connects <;> simp <;> split_ifs <;> simp_all

/-- `AllocConnection` grows the Slot list by at most one. -/
theorem alloc_len (st : Pool) (d : Driver) (w : World) (b : Bool) :
    (st.allocConnection d w b).1.Connections.length ≤ st.Connections.length + 1 := by
  unfold Pool.allocConnection Pool.afterConnect
  cases d.connectResult w.connects <;> simp <;> split_ifs <;> simp_all

/-- When `AllocConnection` raises, the Slot list is unchanged. -/
theorem alloc_error_connections (st : Pool) (d : Driver) (w : World) (b : Bool)
    (e : PoolError) (h : (st.allocConnection d w b).2.2 = Except.error e) :
    (st.allocConnection d w b).1.Connections = st.Connections := by
  cases hc : d.connectResult w.connects <;>
    unfold Pool.allocConnection Pool.afterConnect at h ⊢ <;>
    simp only [hc] at h ⊢ <;> (try split_ifs at h ⊢) <;> simp_all

/-- `was_successful` is monotone across `AllocConnection`. -/
theorem alloc_ws_mono (st : Pool) (d : Driver) (w : World) (b : Bool)
    (h : st.was_successful = true) :
    (st.allocConnection d w b).1.was_successful = true := by
  unfold Pool.allocConnection Pool.afterConnect
  cases d.connectResult w.connects <;> simp <;> split_ifs <;> simp_all

/-- The initialization loop preserves the policy fields, the `Initialized`
flag and the description. -/
theorem initLoop_fields (d : Driver) (n : Nat) (st : Pool) (w : World) :
    (Pool.initLoop d n st w).1.MaxConnections = st.MaxConnections
  ∧ (Pool.initLoop d n st w).1.DefaultConnections = st.DefaultConnections
  ∧ (Pool.initLoop d n st w).1.Initialized = st.Initialized
  ∧ (Pool.initLoop d n st w).1.InitConnect = st.InitConnect
  ∧ (Pool.initLoop d n st w).1.description = st.description := by
  induction n generalizing st w with
  | zero => simp [Pool.initLoop]
  | succ m ih =>
    unfold Pool.initLoop
    rcases ha : st.allocConnection d w false with ⟨st1, w1, r⟩
    have hf := alloc_fields st d w false
    rw [ha] at hf
    obtain ⟨h1, h2, h3, h4, h5, h6⟩ := hf
    cases r with
    | error e => exact ⟨h1, h2, h3, h4, h5⟩
    | ok v =>
      obtain ⟨g1, g2, g3, g4, g5⟩ := ih st1 w1
      exact ⟨g1.trans h1, g2.trans h2, g3.trans h3, g4.trans h4, g5.trans h5⟩

/-- The initialization loop adds at most `n` Slots. -/
theorem initLoop_len (d : Driver) (n : Nat) (st : Pool) (w : World) :
    (Pool.initLoop d n st w).1.Connections.length ≤ st.Connections.length + n := by
  induction n generalizing st w with
  | zero => simp [Pool.initLoop]
  | succ m ih =>
    unfold Pool.initLoop
    rcases ha : st.allocConnection d w false with ⟨st1, w1, r⟩
    have hl := alloc_len st d w false
    rw [ha] at hl
    dsimp only at hl
    cases r with
    | error e => dsimp only; omega
    | ok v =>
      have := ih st1 w1
      dsimp only
      omega

/-- `was_successful` is monotone across the initialization loop. -/
theorem initLoop_ws_mono (d : Driver) (n : Nat) (st : Pool) (w : World)
    (h : st.was_successful = true) :
    (Pool.initLoop d n st w).1.was_successful = true := by
  induction n generalizing st w with
  | zero => simpa [Pool.initLoop] using h
  | succ m ih =>
    unfold Pool.initLoop
    rcases ha : st.allocConnection d w false with ⟨st1, w1, r⟩
    have hw := alloc_ws_mono st d w false h
    rw [ha] at hw
    cases r with
    | error e => exact hw
    | ok v => exact ih st1 w1 hw

/-- `Initialize` preserves the policy fields. -/
theorem initAll_fields (st : Pool) (cfg : Config) (d : Driver) (w : World) :
    (st.initAll cfg d w).1.MaxConnections = st.MaxConnections
  ∧ (st.initAll cfg d w).1.DefaultConnections = st.DefaultConnections
  ∧ (st.initAll cfg d w).1.InitConnect = st.InitConnect := by
  unfold Pool.initAll
  by_cases hi : st.Initialized = true
  · simp [hi]
  · rw [if_neg hi]
    dsimp only
    rcases hl : Pool.initLoop d st.DefaultConnections
        { st with description := cfg.db ++ "@" ++ cfg.host ++ ":" ++ cfg.port
            ++ " as user " ++ cfg.user } w with ⟨st2, w2, r⟩
    have hf := initLoop_fields d st.DefaultConnections
        { st with description := cfg.db ++ "@" ++ cfg.host ++ ":" ++ cfg.port
            ++ " as user " ++ cfg.user } w
    rw [hl] at hf
    dsimp only at hf
    cases r <;> dsimp only <;> simp_all

/-- If the pool had no Slots, `Initialize` leaves at most
`DefaultConnections` Slots. -/
theorem initAll_len (st : Pool) (cfg : Config) (d : Driver) (w : World)
    (h0 : st.Connections = []) :
    (st.initAll cfg d w).1.Connections.length ≤ st.DefaultConnections := by
  unfold Pool.initAll
  by_cases hi : st.Initialized = true
  · simp [hi, h0]
  · rw [if_neg hi]
    dsimp only
    rcases hl : Pool.initLoop d st.DefaultConnections
        { st with description := cfg.db ++ "@" ++ cfg.host ++ ":" ++ cfg.port
            ++ " as user " ++ cfg.user } w with ⟨st2, w2, r⟩
    have hlen := initLoop_len d st.DefaultConnections
        { st with description := cfg.db ++ "@" ++ cfg.host ++ ":" ++ cfg.port
            ++ " as user " ++ cfg.user } w
    rw [hl] at hlen
    dsimp only at hlen
    simp only [h0] at hlen
    cases r <;> dsimp only <;> simpa using hlen

/-- `was_successful` is monotone across `Initialize`. -/
theorem initAll_ws_mono (st : Pool) (cfg : Config) (d : Driver) (w : World)
    (h : st.was_successful = true) :
    (st.initAll cfg d w).1.was_successful = true := by
  unfold Pool.initAll
  by_cases hi : st.Initialized = true
  · simp [hi, h]
  · rw [if_neg hi]
    dsimp only
    rcases hl : Pool.initLoop d st.DefaultConnections
        { st with description := cfg.db ++ "@" ++ cfg.host ++ ":" ++ cfg.port
            ++ " as user " ++ cfg.user } w with ⟨st2, w2, r⟩
    have hw := initLoop_ws_mono d st.DefaultConnections
        { st with description := cfg.db ++ "@" ++ cfg.host ++ ":" ++ cfg.port
            ++ " as user " ++ cfg.user } w h
    rw [hl] at hw
    dsimp only at hw
    cases r <;> dsimp only <;> exact hw

/-- C3: when `connect` fails with errnum `n` inside `AllocConnection`, the
outcome is classified as follows: a fatal errnum is re-raised regardless of
any other state; otherwise a cold-start failure (`was_successful` still false
and no suppression) is re-raised; otherwise, if the daemon is being shut down,
the shutdown exception is raised; otherwise `AllocConnection` returns NULL
without raising, leaving the Slot list unchanged. -/
theorem allocConnection_failure_classification (st : Pool) (d : Driver) (w : World)
    (b : Bool) (n : Nat) (hc : d.connectResult w.connects = ConnectResult.fail n) :
    (fatalErrno n = true →
      st.allocConnection d w b =
        ({ st with nextId := st.nextId + 1 }, { w with connects := w.connects + 1 },
          Except.error (PoolError.connectionFailed n)))
  ∧ (st.was_successful = false → b = false →
      st.allocConnection d w b =
        ({ st with nextId := st.nextId + 1 }, { w with connects := w.connects + 1 },
          Except.error (PoolError.connectionFailed n)))
  ∧ (fatalErrno n = false → (st.was_successful = true ∨ b = true) → d.cancelled = true →
      st.allocConnection d w b =
        ({ st with nextId := st.nextId + 1 }, { w with connects := w.connects + 1 },
          Except.error PoolError.daemonCancelled))
  ∧ (fatalErrno n = false → (st.was_successful = true ∨ b = true) → d.cancelled = false →
      st.allocConnection d w b =
        ({ st with nextId := st.nextId + 1 }, { w with connects := w.connects + 1 },
          Except.ok none)) := by
  unfold Pool.allocConnection
  simp only [hc]
  refine ⟨?_, ?_, ?_, ?_⟩ <;> intros <;> split_ifs <;> simp_all

/-- Witness for `allocConnection_failure_classification` at a concrete input:
a connect failure with `ER_ACCESS_DENIED_ERROR` is re-raised. -/
theorem allocConnection_failure_classification_witness :
    dDenied.connectResult w0.connects = ConnectResult.fail ER_ACCESS_DENIED_ERROR
  ∧ fatalErrno ER_ACCESS_DENIED_ERROR = true
  ∧ stOneBusy.allocConnection dDenied w0 false =
      ({ stOneBusy with nextId := stOneBusy.nextId + 1 },
        { w0 with connects := w0.connects + 1 },
        Except.error (PoolError.connectionFailed ER_ACCESS_DENIED_ERROR)) :=
  ⟨rfl, by decide,
    (allocConnection_failure_classification stOneBusy dDenied w0 false
      ER_ACCESS_DENIED_ERROR rfl).1 (by decide)⟩

/-- C9: in `AllocConnection`, `was_successful` is set before `afterConnect`
runs and before the Slot is appended: if `connect` succeeds but the non-empty
init statement fails, the exception propagates, no Slot is appended, and
`was_successful` is already true, so later non-fatal connect failures are
treated as transient (returned as NULL rather than re-raised). -/
theorem was_successful_set_before_afterConnect (st : Pool) (d : Driver) (w : World)
    (b : Bool) (hc : d.connectResult w.connects = ConnectResult.ok)
    (hic : st.InitConnect ≠ "") (hx : d.execOk w.execs = false) :
    (st.allocConnection d w b).2.2 = Except.error PoolError.queryFailed
  ∧ (st.allocConnection d w b).1.was_successful = true
  ∧ (st.allocConnection d w b).1.Connections = st.Connections
  ∧ (∀ d2 w2 b2 n, d2.connectResult w2.connects = ConnectResult.fail n →
      fatalErrno n = false → d2.cancelled = false →
      ((st.allocConnection d w b).1.allocConnection d2 w2 b2).2.2 = Except.ok none) := by
  have h1 : st.allocConnection d w b =
      ({ st with nextId := st.nextId + 1, was_successful := true },
        { w with connects := w.connects + 1, execs := w.execs + 1 },
        Except.error PoolError.queryFailed) := by
    unfold Pool.allocConnection Pool.afterConnect
    simp [hc, hic, hx]
  rw [h1]
  refine ⟨rfl, rfl, rfl, ?_⟩
  intro d2 w2 b2 n hc2 hf2 hcan2
  unfold Pool.allocConnection
  simp [hc2, hf2, hcan2]

/-- Witness for `was_successful_set_before_afterConnect` at a concrete input. -/
theorem was_successful_set_before_afterConnect_witness :
    dExecFails.connectResult ({ connects := 1, execs := 1, pings := 0 } : World).connects
      = ConnectResult.ok
  ∧ (mkPool "" 1 2 "q").InitConnect ≠ ""
  ∧ dExecFails.execOk ({ connects := 1, execs := 1, pings := 0 } : World).execs = false
  ∧ ((mkPool "" 1 2 "q").allocConnection dExecFails
      { connects := 1, execs := 1, pings := 0 } false).2.2
      = Except.error PoolError.queryFailed :=
  ⟨rfl, by decide, rfl,
    (was_successful_set_before_afterConnect (mkPool "" 1 2 "q") dExecFails
      { connects := 1, execs := 1, pings := 0 } false rfl (by decide) rfl).1⟩

/-- C10: when `tryGet` finds an idle Slot whose plain ping fails, it returns
an empty `Entry` and the pool state is exactly as before the call: the probe's
temporary ref-count increment has been undone by the destructor of the local
`Entry`, so the Slot is again claimable. -/
theorem tryGet_ping_failure_state_unchanged (st : Pool) (cfg : Config) (d : Driver)
    (w : World) (c : PoolConn) (hInit : st.Initialized = true)
    (hIdle : st.findIdle = some c) (hPing : d.pingOk w.pings = false) :
    st.tryGet cfg d w = (st, { w with pings := w.pings + 1 }, Except.ok none) := by
  unfold Pool.tryGet
  rw [initAll_skip st cfg d w hInit]
  dsimp only
  rw [hIdle]
  dsimp only
  rw [hPing]
  simp [bumpRef_cancel]

/-- Witness for `tryGet_ping_failure_state_unchanged` at a concrete input. -/
theorem tryGet_ping_failure_state_unchanged_witness :
    stOneIdle.findIdle = some { id := 0, ref_count := 0 }
  ∧ dPingFail.pingOk w0.pings = false
  ∧ stOneIdle.tryGet cfg0 dPingFail w0 =
      (stOneIdle, { w0 with pings := w0.pings + 1 }, Except.ok none) :=
  ⟨by decide, rfl,
    tryGet_ping_failure_state_unchanged stOneIdle cfg0 dPingFail w0
      { id := 0, ref_count := 0 } rfl (by decide) rfl⟩

/-- C8: if the very first connect fails with `ER_ACCESS_DENIED_ERROR`, the
first `Get` on a fresh pool throws, and afterwards the Slot list is still
empty, `was_successful` is still false and `Initialized` is still false. -/
theorem cold_start_fatal_atomicity (cn ic : String) (Def M : Nat) (cfg : Config)
    (d : Driver) (fuel : Nat) (w : World) (hDef : 0 < Def) (hw : w.connects = 0)
    (hc : d.connectResult 0 = ConnectResult.fail ER_ACCESS_DENIED_ERROR) :
    ((mkPool cn Def M ic).Get cfg d fuel w).2.2.2 =
        Except.error (PoolError.connectionFailed ER_ACCESS_DENIED_ERROR)
  ∧ ((mkPool cn Def M ic).Get cfg d fuel w).1.Connections = []
  ∧ ((mkPool cn Def M ic).Get cfg d fuel w).1.was_successful = false
  ∧ ((mkPool cn Def M ic).Get cfg d fuel w).1.Initialized = false := by
  obtain ⟨m, rfl⟩ : ∃ m, Def = m + 1 := ⟨Def - 1, by omega⟩
  have hc' : d.connectResult w.connects = ConnectResult.fail ER_ACCESS_DENIED_ERROR := by
    rw [hw]; exact hc
  have hf : fatalErrno ER_ACCESS_DENIED_ERROR = true := by decide
  unfold Pool.Get Pool.initAll Pool.initLoop Pool.allocConnection
  simp [mkPool, hc', hf]

/-- Witness for `cold_start_fatal_atomicity` at a concrete input. -/
theorem cold_start_fatal_atomicity_witness :
    (0 : Nat) < 1 ∧ w0.connects = 0
  ∧ dDenied.connectResult 0 = ConnectResult.fail ER_ACCESS_DENIED_ERROR
  ∧ ((mkPool "" 1 16 "").Get cfg0 dDenied 3 w0).1.Connections = [] :=
  ⟨by decide, rfl, rfl,
    (cold_start_fatal_atomicity "" "" 1 16 cfg0 dDenied 3 w0 (by decide) rfl rfl).2.1⟩

/-- The retry loop of `Get` preserves the capacity bound, the maximum and the
`Initialized` flag: growth is guarded by `Connections.size() < MaxConnections`. -/
theorem getLoop_inv (d : Driver) (n : Nat) (st : Pool) (w : World) (evs : List Event)
    (M : Nat) (hM : st.MaxConnections = M) (hlen : st.Connections.length ≤ M) :
    (Pool.getLoop d n st w evs).1.MaxConnections = M
  ∧ (Pool.getLoop d n st w evs).1.Connections.length ≤ M
  ∧ (Pool.getLoop d n st w evs).1.Initialized = st.Initialized := by
  induction n generalizing st w evs with
  | zero => exact ⟨hM, hlen, rfl⟩
  | succ m ih =>
    unfold Pool.getLoop
    cases hidle : st.findIdle with
    | some c =>
      dsimp only
      exact ⟨hM, by simpa [bumpRef_length] using hlen, rfl⟩
    | none =>
      dsimp only
      by_cases hlt : st.Connections.length < st.MaxConnections
      · rw [if_pos hlt]
        rcases ha : st.allocConnection d w false with ⟨st1, w1, r⟩
        have hfld := alloc_fields st d w false
        rw [ha] at hfld
        dsimp only at hfld
        have hln := alloc_len st d w false
        rw [ha] at hln
        dsimp only at hln
        cases r with
        | error e =>
          dsimp only
          exact ⟨hfld.1.trans hM, by omega, hfld.2.2.1⟩
        | ok v =>
          cases v with
          | some conn =>
            dsimp only
            refine ⟨hfld.1.trans hM, ?_, hfld.2.2.1⟩
            rw [bumpRef_length]
            omega
          | none =>
            dsimp only
            have := ih st1 w1
              (evs ++ [Event.unlock, Event.yieldCpu,
                Event.sleep MYSQLXX_POOL_SLEEP_ON_CONNECT_FAIL, Event.lock])
              (hfld.1.trans hM) (by omega)
            exact ⟨this.1, this.2.1, this.2.2.trans hfld.2.2.1⟩
      · rw [if_neg hlt]
        exact ih st w
          (evs ++ [Event.unlock, Event.yieldCpu,
            Event.sleep MYSQLXX_POOL_SLEEP_ON_CONNECT_FAIL, Event.lock]) hM hlen

/-- `tryGet` on an initialized pool preserves the capacity bound, the maximum
and the `Initialized` flag. -/
theorem tryGet_capacity (st : Pool) (cfg : Config) (d : Driver) (w : World)
    (M : Nat) (hI : st.Initialized = true) (hM : st.MaxConnections = M)
    (hlen : st.Connections.length ≤ M) :
    (st.tryGet cfg d w).1.MaxConnections = M
  ∧ (st.tryGet cfg d w).1.Connections.length ≤ M
  ∧ (st.tryGet cfg d w).1.Initialized = true := by
  unfold Pool.tryGet
  rw [initAll_skip st cfg d w hI]
  dsimp only
  cases hidle : st.findIdle with
  | some c =>
    dsimp only
    by_cases hp : d.pingOk w.pings = true
    · rw [if_pos hp]
      exact ⟨hM, by simpa [bumpRef_length] using hlen, hI⟩
    · rw [if_neg hp]
      exact ⟨hM, by simpa [bumpRef_length] using hlen, hI⟩
  | none =>
    dsimp only
    by_cases hge : st.MaxConnections ≤ st.Connections.length
    · rw [if_pos hge]
      exact ⟨hM, hlen, hI⟩
    · rw [if_neg hge]
      rcases ha : st.allocConnection d w true with ⟨st1, w1, r⟩
      have hfld := alloc_fields st d w true
      rw [ha] at hfld
      dsimp only at hfld
      have hln := alloc_len st d w true
      rw [ha] at hln
      dsimp only at hln
      have hlt : st.Connections.length < M := by omega
      cases r with
      | error e =>
        dsimp only
        refine ⟨hfld.1.trans hM, by omega, ?_⟩
        rw [hfld.2.2.1]
        exact hI
      | ok v =>
        cases v with
        | some conn =>
          dsimp only
          refine ⟨hfld.1.trans hM, ?_, ?_⟩
          · rw [bumpRef_length]; omega
          · rw [hfld.2.2.1]; exact hI
        | none =>
          dsimp only
          refine ⟨hfld.1.trans hM, by omega, ?_⟩
          rw [hfld.2.2.1]
          exact hI

/-- When `Initialize` returns without raising, the `Initialized` flag is set. -/
theorem initAll_ok_initialized (st : Pool) (cfg : Config) (d : Driver) (w : World)
    (u : Unit) (h : (st.initAll cfg d w).2.2 = Except.ok u) :
    (st.initAll cfg d w).1.Initialized = true := by
  unfold Pool.initAll at h ⊢
  by_cases hi : st.Initialized = true
  · simp [hi]
  · rw [if_neg hi] at h ⊢
    dsimp only at h ⊢
    rcases hl : Pool.initLoop d st.DefaultConnections
        { st with description := cfg.db ++ "@" ++ cfg.host ++ ":" ++ cfg.port
            ++ " as user " ++ cfg.user } w with ⟨st2, w2, r⟩
    rw [hl] at h
    cases r with
    | error e =>
      dsimp only at h
      exact Except.noConfusion h
    | ok v => rfl

/-- Any sequence of `Get` / `tryGet` / `Entry`-release operations on an
initialized pool within capacity keeps the pool within capacity (and keeps it
initialized, with the same maximum). -/
theorem runOps_inv (cfg : Config) (d : Driver) (ops : List PoolOp) (st : Pool)
    (w : World) (M : Nat) (hI : st.Initialized = true) (hM : st.MaxConnections = M)
    (hlen : st.Connections.length ≤ M) :
    (runOps cfg d ops st w).1.Initialized = true
  ∧ (runOps cfg d ops st w).1.MaxConnections = M
  ∧ (runOps cfg d ops st w).1.Connections.length ≤ M := by
  induction ops generalizing st w with
  | nil => exact ⟨hI, hM, hlen⟩
  | cons op ops ih =>
    cases op with
    | get fuel =>
      unfold runOps
      have hg : st.Get cfg d fuel w = Pool.getLoop d fuel st w [] := by
        unfold Pool.Get
        rw [initAll_skip st cfg d w hI]
      rw [hg]
      have hG := getLoop_inv d fuel st w [] M hM hlen
      exact ih _ _ (hG.2.2.trans hI) hG.1 hG.2.1
    | tryget =>
      unfold runOps
      have hT := tryGet_capacity st cfg d w M hI hM hlen
      exact ih _ _ hT.2.2 hT.1 hT.2.1
    | release i =>
      unfold runOps
      exact ih _ _ hI hM (by simpa [bumpRef_length] using hlen)

/-- C1 (amended): the capacity bound `live_slots ≤ maximum` holds provided the
configured initial count does not exceed the configured maximum and
initialization completes without raising: a completed `Initialize` on a fresh
pool leaves at most `maximum` Slots and the pool initialized, and from any
initialized state within capacity every sequence of operations stays within
capacity.  As literally stated — for an initial count exceeding the maximum,
whose warm-up loop has no capacity check — the claim is false; see
`capacity_exceeded_counterexample`. -/
theorem capacity_bound_amended :
    (∀ cn ic cfg d w Def M u st1 w1,
      Def ≤ M →
      (mkPool cn Def M ic).initAll cfg d w = (st1, w1, Except.ok u) →
      st1.Connections.length ≤ M ∧ st1.Initialized = true)
  ∧ (∀ cfg d ops st w M,
      st.Initialized = true → st.MaxConnections = M → st.Connections.length ≤ M →
      (runOps cfg d ops st w).1.Connections.length ≤ M) := by
  constructor
  · intro cn ic cfg d w Def M u st1 w1 hDM heq
    have h1 : st1 = ((mkPool cn Def M ic).initAll cfg d w).1 := by rw [heq]
    have hlen := initAll_len (mkPool cn Def M ic) cfg d w rfl
    have hini := initAll_ok_initialized (mkPool cn Def M ic) cfg d w u (by rw [heq])
    constructor
    · rw [h1]
      exact le_trans hlen hDM
    · rw [h1]
      exact hini
  · intro cfg d ops st w M hI hM hlen
    exact (runOps_inv cfg d ops st w M hI hM hlen).2.2

/-- Witness for `capacity_bound_amended` at a concrete input. -/
theorem capacity_bound_amended_witness :
    stOneIdle.Initialized = true ∧ stOneIdle.MaxConnections = 4
  ∧ stOneIdle.Connections.length ≤ 4
  ∧ (runOps cfg0 dAllOk [PoolOp.tryget] stOneIdle w0).1.Connections.length ≤ 4 :=
  ⟨rfl, rfl, by decide,
    capacity_bound_amended.2 cfg0 dAllOk [PoolOp.tryget] stOneIdle w0 4 rfl rfl
      (by decide)⟩

/-- The capacity claim as stated is false at a concrete input: with an initial
count of 3 exceeding the maximum of 2 and an always-healthy driver, the first
`Get` leaves 3 Slots in a pool whose configured maximum is 2 (the warm-up loop
of `Initialize` calls `AllocConnection` with no capacity check). -/
theorem capacity_exceeded_counterexample :
    (mkPool "" 3 2 "").MaxConnections = 2
  ∧ ((mkPool "" 3 2 "").Get cfg0 dAllOk 1 w0).1.Connections.length = 3 :=
  ⟨rfl, by decide⟩

/-- When connect and the init statement both succeed, `AllocConnection`
returns the freshly appended Slot. -/
theorem alloc_ok_shape (st : Pool) (d : Driver) (w : World) (b : Bool)
    (hc : d.connectResult w.connects = ConnectResult.ok)
    (hx : d.execOk w.execs = true) :
    (st.allocConnection d w b).2.2
        = Except.ok (some { id := st.nextId, ref_count := 0 })
  ∧ (st.allocConnection d w b).1.Connections
        = st.Connections ++ [{ id := st.nextId, ref_count := 0 }] := by
  unfold Pool.allocConnection Pool.afterConnect
  by_cases hic : st.InitConnect = "" <;> simp [hc, hx, hic]

/-- When every connect and every init-statement execution succeeds, the
warm-up loop opens exactly `n` sessions and does not raise. -/
theorem initLoop_all_ok (d : Driver) (hc : ∀ k, d.connectResult k = ConnectResult.ok)
    (hx : ∀ k, d.execOk k = true) (n : Nat) (st : Pool) (w : World) :
    (Pool.initLoop d n st w).2.2 = Except.ok ()
  ∧ (Pool.initLoop d n st w).1.Connections.length = st.Connections.length + n := by
  induction n generalizing st w with
  | zero => simp [Pool.initLoop]
  | succ m ih =>
    unfold Pool.initLoop
    rcases ha : st.allocConnection d w false with ⟨st1, w1, r⟩
    have hs := alloc_ok_shape st d w false (hc w.connects) (hx w.execs)
    rw [ha] at hs
    dsimp only at hs
    cases r with
    | error e => exact absurd hs.1 (by simp)
    | ok v =>
      dsimp only
      have hrec := ih st1 w1
      have hl1 : st1.Connections.length = st.Connections.length + 1 := by
        rw [hs.2]
        simp
      refine ⟨hrec.1, ?_⟩
      rw [hrec.2, hl1]
      omega

/-- The retry loop of `Get` never changes the `Initialized` flag. -/
theorem getLoop_initialized (d : Driver) (n : Nat) (st : Pool) (w : World)
    (evs : List Event) :
    (Pool.getLoop d n st w evs).1.Initialized = st.Initialized := by
  induction n generalizing st w evs with
  | zero => rfl
  | succ m ih =>
    unfold Pool.getLoop
    cases hidle : st.findIdle with
    | some c => rfl
    | none =>
      dsimp only
      by_cases hlt : st.Connections.length < st.MaxConnections
      · rw [if_pos hlt]
        rcases ha : st.allocConnection d w false with ⟨st1, w1, r⟩
        have hfld := alloc_fields st d w false
        rw [ha] at hfld
        dsimp only at hfld
        cases r with
        | error e => exact hfld.2.2.1
        | ok v =>
          cases v with
          | some conn => exact hfld.2.2.1
          | none => exact (ih st1 w1 _).trans hfld.2.2.1
      · rw [if_neg hlt]
        exact ih st w _

/-- `tryGet` keeps an initialized pool initialized. -/
theorem tryGet_initialized (st : Pool) (cfg : Config) (d : Driver) (w : World)
    (hI : st.Initialized = true) :
    (st.tryGet cfg d w).1.Initialized = true := by
  unfold Pool.tryGet
  rw [initAll_skip st cfg d w hI]
  dsimp only
  cases hidle : st.findIdle with
  | some c =>
    dsimp only
    by_cases hp : d.pingOk w.pings = true
    · rw [if_pos hp]; exact hI
    · rw [if_neg hp]; exact hI
  | none =>
    dsimp only
    by_cases hge : st.MaxConnections ≤ st.Connections.length
    · rw [if_pos hge]; exact hI
    · rw [if_neg hge]
      rcases ha : st.allocConnection d w true with ⟨st1, w1, r⟩
      have hfld := alloc_fields st d w true
      rw [ha] at hfld
      dsimp only at hfld
      cases r with
      | error e => exact hfld.2.2.1.trans hI
      | ok v =>
        cases v with
        | some conn => exact hfld.2.2.1.trans hI
        | none => exact hfld.2.2.1.trans hI

/-- Once `Initialized` is true it stays true across every later operation. -/
theorem runOps_initialized_mono (cfg : Config) (d : Driver) (ops : List PoolOp)
    (st : Pool) (w : World) (hI : st.Initialized = true) :
    (runOps cfg d ops st w).1.Initialized = true := by
  induction ops generalizing st w with
  | nil => exact hI
  | cons op ops ih =>
    cases op with
    | get fuel =>
      unfold runOps
      have hg : st.Get cfg d fuel w = Pool.getLoop d fuel st w [] := by
        unfold Pool.Get
        rw [initAll_skip st cfg d w hI]
      rw [hg]
      exact ih _ _ ((getLoop_initialized d fuel st w []).trans hI)
    | tryget =>
      unfold runOps
      exact ih _ _ (tryGet_initialized st cfg d w hI)
    | release i =>
      unfold runOps
      exact ih _ _ hI

/-- C7 (amended): the first acquisition runs `Initialize` under the mutex;
`Initialize` is idempotent (a no-op once `Initialized` is true, so the flag
flips from false to true exactly once and no later acquisition re-runs any
initialization work), it composes the description, and when every connect and
every init-statement execution succeeds it opens exactly `DefaultConnections`
sessions before setting `Initialized`.  As literally stated the claim is
false: a transient connect failure after the pool's first lifetime success
makes the warm-up loop open fewer than `initial` sessions while still setting
`Initialized`; see `initialization_partial_counterexample`. -/
theorem initialization_amended (st : Pool) (cfg : Config) (d : Driver) (w : World) :
    (st.Initialized = true → st.initAll cfg d w = (st, w, Except.ok ()))
  ∧ (st.Initialized = false →
      (∀ k, d.connectResult k = ConnectResult.ok) →
      (∀ k, d.execOk k = true) →
      (st.initAll cfg d w).2.2 = Except.ok ()
      ∧ (st.initAll cfg d w).1.Initialized = true
      ∧ (st.initAll cfg d w).1.Connections.length
          = st.Connections.length + st.DefaultConnections
      ∧ (st.initAll cfg d w).1.description
          = cfg.db ++ "@" ++ cfg.host ++ ":" ++ cfg.port ++ " as user " ++ cfg.user)
  ∧ (∀ ops w2, st.Initialized = true →
      (runOps cfg d ops st w2).1.Initialized = true) := by
  refine ⟨fun hI => initAll_skip st cfg d w hI, ?_, ?_⟩
  · intro hI hc hx
    unfold Pool.initAll
    rw [if_neg (by rw [hI]; exact Bool.false_ne_true)]
    dsimp only
    rcases hl : Pool.initLoop d st.DefaultConnections
        { st with description := cfg.db ++ "@" ++ cfg.host ++ ":" ++ cfg.port
            ++ " as user " ++ cfg.user } w with ⟨st2, w2, r⟩
    have hall := initLoop_all_ok d hc hx st.DefaultConnections
        { st with description := cfg.db ++ "@" ++ cfg.host ++ ":" ++ cfg.port
            ++ " as user " ++ cfg.user } w
    rw [hl] at hall
    dsimp only at hall
    have hfld := initLoop_fields d st.DefaultConnections
        { st with description := cfg.db ++ "@" ++ cfg.host ++ ":" ++ cfg.port
            ++ " as user " ++ cfg.user } w
    rw [hl] at hfld
    dsimp only at hfld
    cases r with
    | error e => exact absurd hall.1 (by simp)
    | ok v =>
      dsimp only
      refine ⟨rfl, rfl, ?_, ?_⟩
      · have := hall.2
        simpa using this
      · simpa using hfld.2.2.2.2
  · intro ops w2 hI
    exact runOps_initialized_mono cfg d ops st w2 hI

/-- Witness for `initialization_amended` at a concrete input. -/
theorem initialization_amended_witness :
    (mkPool "" 2 4 "").Initialized = false
  ∧ ((mkPool "" 2 4 "").initAll cfg0 dAllOk w0).1.Connections.length
      = (mkPool "" 2 4 "").Connections.length + (mkPool "" 2 4 "").DefaultConnections :=
  ⟨rfl, ((initialization_amended (mkPool "" 2 4 "") cfg0 dAllOk w0).2.1 rfl
      (fun _ => rfl) (fun _ => rfl)).2.2.1⟩

/-- The initialization claim as stated is false at a concrete input: with
`initial = 2` and a driver whose first connect succeeds and whose second fails
with the non-fatal code 2002, `Initialize` on a fresh pool returns normally
with only 1 Slot opened, yet `Initialized` is set to true. -/
theorem initialization_partial_counterexample :
    ((mkPool "" 2 16 "").initAll cfg0 dOkThenFail w0).2.2 = Except.ok ()
  ∧ ((mkPool "" 2 16 "").initAll cfg0 dOkThenFail w0).1.Initialized = true
  ∧ ((mkPool "" 2 16 "").initAll cfg0 dOkThenFail w0).1.Connections.length = 1
  ∧ (mkPool "" 2 16 "").DefaultConnections = 2 :=
  ⟨by decide, by decide, by decide, rfl⟩

/-- C4: on an initialized pool, `tryGet` distinguishes its failure modes:
with no idle Slot and at least `MaxConnections` Slots it throws "pool is
full"; with an idle Slot whose plain ping (no reconnect) fails it returns an
empty `Entry` without throwing; with no idle Slot and capacity to spare it
allocates with the suppression flag set and returns an `Entry` to the new
Slot, or an empty `Entry` when the allocation failed transiently. -/
theorem tryGet_failure_modes (st : Pool) (cfg : Config) (d : Driver) (w : World)
    (hI : st.Initialized = true) :
    (st.findIdle = none → st.MaxConnections ≤ st.Connections.length →
      st.tryGet cfg d w = (st, w, Except.error PoolError.poolFull))
  ∧ (∀ c, st.findIdle = some c → d.pingOk w.pings = false →
      (st.tryGet cfg d w).2.2 = Except.ok none)
  ∧ (st.findIdle = none → st.Connections.length < st.MaxConnections →
      (∀ conn, (st.allocConnection d w true).2.2 = Except.ok (some conn) →
        (st.tryGet cfg d w).2.2 = Except.ok (some conn.id))
      ∧ ((st.allocConnection d w true).2.2 = Except.ok none →
        (st.tryGet cfg d w).2.2 = Except.ok none)) := by
  refine ⟨?_, ?_, ?_⟩
  · intro hidle hge
    unfold Pool.tryGet
    rw [initAll_skip st cfg d w hI]
    dsimp only
    rw [hidle]
    dsimp only
    rw [if_pos hge]
  · intro c hidle hp
    rw [tryGet_ping_failure_state_unchanged st cfg d w c hI hidle hp]
  · intro hidle hlt
    constructor
    · intro conn hok
      unfold Pool.tryGet
      rw [initAll_skip st cfg d w hI]
      dsimp only
      rw [hidle]
      dsimp only
      rw [if_neg (Nat.not_le.mpr hlt)]
      rcases ha : st.allocConnection d w true with ⟨st1, w1, r⟩
      rw [ha] at hok
      dsimp only at hok
      cases hok
      rfl
    · intro hok
      unfold Pool.tryGet
      rw [initAll_skip st cfg d w hI]
      dsimp only
      rw [hidle]
      dsimp only
      rw [if_neg (Nat.not_le.mpr hlt)]
      rcases ha : st.allocConnection d w true with ⟨st1, w1, r⟩
      rw [ha] at hok
      dsimp only at hok
      cases hok
      rfl

/-- Witness for `tryGet_failure_modes` at a concrete input: a saturated pool
makes `tryGet` throw "pool is full". -/
theorem tryGet_failure_modes_witness :
    stOneBusy.Initialized = true
  ∧ stOneBusy.findIdle = none
  ∧ stOneBusy.MaxConnections ≤ stOneBusy.Connections.length
  ∧ stOneBusy.tryGet cfg0 dAllOk w0 = (stOneBusy, w0, Except.error PoolError.poolFull) :=
  ⟨rfl, by decide, by decide,
    (tryGet_failure_modes stOneBusy cfg0 dAllOk w0 rfl).1 (by decide) (by decide)⟩

/-- Exceptions out of `AllocConnection` are never "pool is full" or
NULL-access errors. -/
theorem alloc_error_mem (st : Pool) (d : Driver) (w : World) (b : Bool) :
    ∀ e, (st.allocConnection d w b).2.2 = Except.error e →
      e ≠ PoolError.poolFull ∧ e ≠ PoolError.nullAccess := by
  intro e h
  cases e with
  | poolFull =>
    exfalso
    cases hc : d.connectResult w.connects <;>
      unfold Pool.allocConnection Pool.afterConnect at h <;>
      simp only [hc] at h <;> (try split_ifs at h) <;> simp_all
  | nullAccess =>
    exfalso
    cases hc : d.connectResult w.connects <;>
      unfold Pool.allocConnection Pool.afterConnect at h <;>
      simp only [hc] at h <;> (try split_ifs at h) <;> simp_all
  | connectionFailed n => exact ⟨by simp, by simp⟩
  | daemonCancelled => exact ⟨by simp, by simp⟩
  | queryFailed => exact ⟨by simp, by simp⟩

/-- After a lifetime success, a `ConnectionFailed` re-raised by
`AllocConnection` carries a fatal errnum. -/
theorem alloc_cf_fatal (st : Pool) (d : Driver) (w : World) (b : Bool) (n : Nat)
    (hws : st.was_successful = true)
    (h : (st.allocConnection d w b).2.2 = Except.error (PoolError.connectionFailed n)) :
    fatalErrno n = true := by
  cases hc : d.connectResult w.connects <;>
    unfold Pool.allocConnection Pool.afterConnect at h <;>
    simp only [hc] at h <;> (try split_ifs at h) <;> simp_all

/-- Exceptions out of the warm-up loop are never "pool is full" or NULL-access
errors. -/
theorem initLoop_error_mem (d : Driver) (n : Nat) (st : Pool) (w : World) :
    ∀ e, (Pool.initLoop d n st w).2.2 = Except.error e →
      e ≠ PoolError.poolFull ∧ e ≠ PoolError.nullAccess := by
  induction n generalizing st w with
  | zero => intro e h; simp [Pool.initLoop] at h
  | succ m ih =>
    intro e h
    unfold Pool.initLoop at h
    rcases ha : st.allocConnection d w false with ⟨st1, w1, r⟩
    rw [ha] at h
    cases r with
    | error e2 =>
      dsimp only at h
      have he : e2 = e := by
        injection h
      subst he
      have hmem := alloc_error_mem st d w false e2
      rw [ha] at hmem
      exact hmem rfl
    | ok v => exact ih st1 w1 e h

/-- After a lifetime success, a `ConnectionFailed` escaping the warm-up loop
carries a fatal errnum. -/
theorem initLoop_cf_fatal (d : Driver) (n : Nat) (st : Pool) (w : World) (m : Nat)
    (hws : st.was_successful = true)
    (h : (Pool.initLoop d n st w).2.2 = Except.error (PoolError.connectionFailed m)) :
    fatalErrno m = true := by
  induction n generalizing st w with
  | zero => simp [Pool.initLoop] at h
  | succ k ih =>
    unfold Pool.initLoop at h
    rcases ha : st.allocConnection d w false with ⟨st1, w1, r⟩
    rw [ha] at h
    cases r with
    | error e2 =>
      dsimp only at h
      have he : e2 = PoolError.connectionFailed m := by
        injection h
      subst he
      have hcf := alloc_cf_fatal st d w false m hws
      rw [ha] at hcf
      exact hcf rfl
    | ok v =>
      have hm := alloc_ws_mono st d w false hws
      rw [ha] at hm
      exact ih st1 w1 hm h

/-- Exceptions out of `Initialize` are never "pool is full" or NULL-access
errors. -/
theorem initAll_error_mem (st : Pool) (cfg : Config) (d : Driver) (w : World) :
    ∀ e, (st.initAll cfg d w).2.2 = Except.error e →
      e ≠ PoolError.poolFull ∧ e ≠ PoolError.nullAccess := by
  intro e h
  unfold Pool.initAll at h
  by_cases hi : st.Initialized = true
  · simp [hi] at h
  · rw [if_neg hi] at h
    dsimp only at h
    rcases hl : Pool.initLoop d st.DefaultConnections
        { st with description := cfg.db ++ "@" ++ cfg.host ++ ":" ++ cfg.port
            ++ " as user " ++ cfg.user } w with ⟨st2, w2, r⟩
    rw [hl] at h
    cases r with
    | error e2 =>
      dsimp only at h
      have he : e2 = e := by
        injection h
      subst he
      have hmem := initLoop_error_mem d st.DefaultConnections
          { st with description := cfg.db ++ "@" ++ cfg.host ++ ":" ++ cfg.port
              ++ " as user " ++ cfg.user } w e2
      rw [hl] at hmem
      exact hmem rfl
    | ok v =>
      dsimp only at h
      exact Except.noConfusion h

/-- After a lifetime success, a `ConnectionFailed` escaping `Initialize`
carries a fatal errnum. -/
theorem initAll_cf_fatal (st : Pool) (cfg : Config) (d : Driver) (w : World) (m : Nat)
    (hws : st.was_successful = true)
    (h : (st.initAll cfg d w).2.2 = Except.error (PoolError.connectionFailed m)) :
    fatalErrno m = true := by
  unfold Pool.initAll at h
  by_cases hi : st.Initialized = true
  · simp [hi] at h
  · rw [if_neg hi] at h
    dsimp only at h
    rcases hl : Pool.initLoop d st.DefaultConnections
        { st with description := cfg.db ++ "@" ++ cfg.host ++ ":" ++ cfg.port
            ++ " as user " ++ cfg.user } w with ⟨st2, w2, r⟩
    rw [hl] at h
    cases r with
    | error e2 =>
      dsimp only at h
      have he : e2 = PoolError.connectionFailed m := by
        injection h
      subst he
      have hcf := initLoop_cf_fatal d st.DefaultConnections
          { st with description := cfg.db ++ "@" ++ cfg.host ++ ":" ++ cfg.port
              ++ " as user " ++ cfg.user } w m hws
      rw [hl] at hcf
      exact hcf rfl
    | ok v =>
      dsimp only at h
      exact Except.noConfusion h

/-- Exceptions out of the retry loop of `Get` are never "pool is full" or
NULL-access errors. -/
theorem getLoop_error_mem (d : Driver) (n : Nat) (st : Pool) (w : World)
    (evs : List Event) :
    ∀ e, (Pool.getLoop d n st w evs).2.2.2 = Except.error e →
      e ≠ PoolError.poolFull ∧ e ≠ PoolError.nullAccess := by
  induction n generalizing st w evs with
  | zero => intro e h; simp [Pool.getLoop] at h
  | succ m ih =>
    intro e h
    unfold Pool.getLoop at h
    cases hidle : st.findIdle with
    | some c => rw [hidle] at h; dsimp only at h; exact Except.noConfusion h
    | none =>
      rw [hidle] at h
      dsimp only at h
      by_cases hlt : st.Connections.length < st.MaxConnections
      · rw [if_pos hlt] at h
        rcases ha : st.allocConnection d w false with ⟨st1, w1, r⟩
        rw [ha] at h
        cases r with
        | error e2 =>
          dsimp only at h
          have he : e2 = e := by
            injection h
          subst he
          have hmem := alloc_error_mem st d w false e2
          rw [ha] at hmem
          exact hmem rfl
        | ok v =>
          cases v with
          | some conn => dsimp only at h; exact Except.noConfusion h
          | none => exact ih st1 w1 _ e h
      · rw [if_neg hlt] at h
        exact ih st w _ e h

/-- After a lifetime success, a `ConnectionFailed` escaping the retry loop of
`Get` carries a fatal errnum. -/
theorem getLoop_cf_fatal (d : Driver) (n : Nat) (st : Pool) (w : World)
    (evs : List Event) (m : Nat) (hws : st.was_successful = true)
    (h : (Pool.getLoop d n st w evs).2.2.2
        = Except.error (PoolError.connectionFailed m)) :
    fatalErrno m = true := by
  induction n generalizing st w evs with
  | zero => simp [Pool.getLoop] at h
  | succ k ih =>
    unfold Pool.getLoop at h
    cases hidle : st.findIdle with
    | some c => rw [hidle] at h; dsimp only at h; exact Except.noConfusion h
    | none =>
      rw [hidle] at h
      dsimp only at h
      by_cases hlt : st.Connections.length < st.MaxConnections
      · rw [if_pos hlt] at h
        rcases ha : st.allocConnection d w false with ⟨st1, w1, r⟩
        rw [ha] at h
        cases r with
        | error e2 =>
          dsimp only at h
          have he : e2 = PoolError.connectionFailed m := by
            injection h
          subst he
          have hcf := alloc_cf_fatal st d w false m hws
          rw [ha] at hcf
          exact hcf rfl
        | ok v =>
          cases v with
          | some conn => dsimp only at h; exact Except.noConfusion h
          | none =>
            have hm := alloc_ws_mono st d w false hws
            rw [ha] at hm
            exact ih st1 w1 _ hm h
      · rw [if_neg hlt] at h
        exact ih st w _ hws h

/-- An `Entry` returned by the retry loop of `Get` always has a non-NULL data
pointer. -/
theorem getLoop_ok_ret (d : Driver) (n : Nat) (st : Pool) (w : World)
    (evs : List Event) (e : EntryData)
    (h : (Pool.getLoop d n st w evs).2.2.2 = Except.ok (GetOutcome.ret e)) :
    ∃ i, e = some i := by
  induction n generalizing st w evs with
  | zero => simp [Pool.getLoop] at h
  | succ m ih =>
    unfold Pool.getLoop at h
    cases hidle : st.findIdle with
    | some c =>
      rw [hidle] at h
      dsimp only at h
      have : GetOutcome.ret (some c.id) = GetOutcome.ret e := by
        injection h
      have he : some c.id = e := by
        injection this
      exact ⟨c.id, he.symm⟩
    | none =>
      rw [hidle] at h
      dsimp only at h
      by_cases hlt : st.Connections.length < st.MaxConnections
      · rw [if_pos hlt] at h
        rcases ha : st.allocConnection d w false with ⟨st1, w1, r⟩
        rw [ha] at h
        cases r with
        | error e2 => dsimp only at h; exact Except.noConfusion h
        | ok v =>
          cases v with
          | some conn =>
            dsimp only at h
            have : GetOutcome.ret (some conn.id) = GetOutcome.ret e := by
              injection h
            have he : some conn.id = e := by
              injection this
            exact ⟨conn.id, he.symm⟩
          | none => exact ih st1 w1 _ h
      · rw [if_neg hlt] at h
        exact ih st w _ h

/-- The retry loop of `Get` only appends whole unlock-yield-sleep-lock blocks
to the event trace, with the fixed `MYSQLXX_POOL_SLEEP_ON_CONNECT_FAIL`
back-off. -/
theorem getLoop_trace (d : Driver) (n : Nat) (st : Pool) (w : World)
    (evs : List Event) :
    ∃ k, (Pool.getLoop d n st w evs).2.2.1
      = evs ++ (List.replicate k [Event.unlock, Event.yieldCpu,
          Event.sleep MYSQLXX_POOL_SLEEP_ON_CONNECT_FAIL, Event.lock]).flatten := by
  induction n generalizing st w evs with
  | zero => exact ⟨0, by simp [Pool.getLoop]⟩
  | succ m ih =>
    unfold Pool.getLoop
    cases hidle : st.findIdle with
    | some c => exact ⟨0, by simp⟩
    | none =>
      dsimp only
      by_cases hlt : st.Connections.length < st.MaxConnections
      · rw [if_pos hlt]
        rcases ha : st.allocConnection d w false with ⟨st1, w1, r⟩
        cases r with
        | error e2 => exact ⟨0, by simp⟩
        | ok v =>
          cases v with
          | some conn => exact ⟨0, by simp⟩
          | none =>
            obtain ⟨k, hk⟩ := ih st1 w1
              (evs ++ [Event.unlock, Event.yieldCpu,
                Event.sleep MYSQLXX_POOL_SLEEP_ON_CONNECT_FAIL, Event.lock])
            refine ⟨k + 1, ?_⟩
            rw [hk]
            simp [List.replicate_succ, List.append_assoc]
      · rw [if_neg hlt]
        obtain ⟨k, hk⟩ := ih st w
          (evs ++ [Event.unlock, Event.yieldCpu,
            Event.sleep MYSQLXX_POOL_SLEEP_ON_CONNECT_FAIL, Event.lock])
        refine ⟨k + 1, ?_⟩
        rw [hk]
        simp [List.replicate_succ, List.append_assoc]

/-- C5 (amended): `Get` never returns a NULL `Entry`; the exceptions it can
propagate are exactly re-raised `ConnectionFailed` errors (which, after at
least one lifetime connect success, are necessarily fatal-errno ones — so a
transient connect failure after the first success never throws), the shutdown
exception, or a failure of the configured non-empty init statement; and
between retries it only appends whole release-mutex / yield / sleep-10-seconds
/ re-acquire blocks to the trace.  As literally stated — "throws only on fatal
misconfiguration errno, cold-start failure, or shutdown" — the claim is false
because the init-statement failure also propagates; see
`acquire_throws_on_init_statement_failure`. -/
theorem acquire_blocking_semantics (st : Pool) (cfg : Config) (d : Driver)
    (fuel : Nat) (w : World) :
    (∀ e, (st.Get cfg d fuel w).2.2.2 = Except.ok (GetOutcome.ret e) → ∃ i, e = some i)
  ∧ (∀ er, (st.Get cfg d fuel w).2.2.2 = Except.error er →
      er = PoolError.queryFailed ∨ er = PoolError.daemonCancelled
      ∨ ∃ n, er = PoolError.connectionFailed n)
  ∧ (∀ n, st.was_successful = true →
      (st.Get cfg d fuel w).2.2.2 = Except.error (PoolError.connectionFailed n) →
      fatalErrno n = true)
  ∧ (∃ k, (st.Get cfg d fuel w).2.2.1
      = (List.replicate k [Event.unlock, Event.yieldCpu,
          Event.sleep MYSQLXX_POOL_SLEEP_ON_CONNECT_FAIL, Event.lock]).flatten) := by
  unfold Pool.Get
  rcases hia : st.initAll cfg d w with ⟨st1, w1, r⟩
  cases r with
  | error e =>
    dsimp only
    refine ⟨?_, ?_, ?_, ⟨0, by simp⟩⟩
    · intro e2 h
      exact Except.noConfusion h
    · intro er h
      have he : e = er := by
        injection h
      subst he
      have hmem := initAll_error_mem st cfg d w e
      rw [hia] at hmem
      have hm2 := hmem rfl
      cases e with
      | queryFailed => exact Or.inl rfl
      | daemonCancelled => exact Or.inr (Or.inl rfl)
      | connectionFailed n => exact Or.inr (Or.inr ⟨n, rfl⟩)
      | poolFull => exact absurd rfl hm2.1
      | nullAccess => exact absurd rfl hm2.2
    · intro n hws h
      have he : e = PoolError.connectionFailed n := by
        injection h
      subst he
      have hcf := initAll_cf_fatal st cfg d w n hws
      rw [hia] at hcf
      exact hcf rfl
  | ok v =>
    dsimp only
    refine ⟨?_, ?_, ?_, getLoop_trace d fuel st1 w1 []⟩
    · intro e h
      exact getLoop_ok_ret d fuel st1 w1 [] e h
    · intro er h
      have hmem := getLoop_error_mem d fuel st1 w1 [] er h
      cases er with
      | queryFailed => exact Or.inl rfl
      | daemonCancelled => exact Or.inr (Or.inl rfl)
      | connectionFailed n => exact Or.inr (Or.inr ⟨n, rfl⟩)
      | poolFull => exact absurd rfl hmem.1
      | nullAccess => exact absurd rfl hmem.2
    · intro n hws h
      have hm := initAll_ws_mono st cfg d w hws
      rw [hia] at hm
      exact getLoop_cf_fatal d fuel st1 w1 [] n hm h

/-- Witness for `acquire_blocking_semantics` at a concrete input. -/
theorem acquire_blocking_semantics_witness :
    ((mkPool "" 1 16 "").Get cfg0 dDenied 3 w0).2.2.2
        = Except.error (PoolError.connectionFailed ER_ACCESS_DENIED_ERROR)
  ∧ (PoolError.connectionFailed ER_ACCESS_DENIED_ERROR = PoolError.queryFailed
      ∨ PoolError.connectionFailed ER_ACCESS_DENIED_ERROR = PoolError.daemonCancelled
      ∨ ∃ n, PoolError.connectionFailed ER_ACCESS_DENIED_ERROR
          = PoolError.connectionFailed n) :=
  ⟨by decide,
    (acquire_blocking_semantics (mkPool "" 1 16 "") cfg0 dDenied 3 w0).2.1 _ (by decide)⟩

/-- The blocking-acquire claim as stated is false at a concrete input: on a
pool with a lifetime connect success and one held Entry, a second `Get` must
grow the pool, connect succeeds, and the non-empty init statement fails; `Get`
propagates that failure, an exception that is neither a re-raised
`ConnectionFailed` (fatal or cold-start) nor the shutdown exception. -/
theorem acquire_throws_on_init_statement_failure :
    stHeld.was_successful = true
  ∧ (stHeld.Get cfg0 dExecFails 1 wHeld).2.2.2 = Except.error PoolError.queryFailed
  ∧ PoolError.queryFailed ≠ PoolError.daemonCancelled :=
  ⟨by decide, by decide, by decide⟩

/-- `afterConnect` never pings. -/
theorem afterConnect_pings (st : Pool) (d : Driver) (w : World) :
    (st.afterConnect d w).1.pings = w.pings := by
  unfold Pool.afterConnect
  dsimp only
  split_ifs <;> rfl

/-- Every exit of the reconnect loop extends the event trace with the block
for its first iteration (no sleep when `first`, else a 5-second sleep) and the
reconnect log line. -/
theorem fcLoop_prefix (st : Pool) (d : Driver) (m : Nat) (first : Bool) (w : World)
    (evs : List Event) (w2 : World) (evs2 : List Event) (r : Except PoolError Unit)
    (h : st.fcLoop d m first w evs = some (w2, evs2, r)) :
    ∃ t, evs2 = ((if first then evs else evs ++ [Event.sleep 5])
        ++ [Event.logReconnect]) ++ t := by
  induction m generalizing first w evs with
  | zero => simp [Pool.fcLoop] at h
  | succ k ih =>
    unfold Pool.fcLoop at h
    dsimp only at h
    cases hc : d.connectResult w.connects with
    | fail n =>
      rw [hc] at h
      dsimp only at h
      simp only [Option.some.injEq, Prod.mk.injEq] at h
      exact ⟨[], by rw [← h.2.1]; simp⟩
    | ok =>
      rw [hc] at h
      dsimp only at h
      by_cases hp : d.pingOk w.pings = true
      · rw [if_pos hp] at h
        rcases haf : st.afterConnect d
            { connects := w.connects + 1, execs := w.execs, pings := w.pings + 1 }
          with ⟨w3, r3⟩
        rw [haf] at h
        dsimp only at h
        simp only [Option.some.injEq, Prod.mk.injEq] at h
        exact ⟨[Event.afterConnectRun], by rw [← h.2.1]⟩
      · rw [if_neg hp] at h
        obtain ⟨t, ht⟩ := ih false _ _ h
        refine ⟨[Event.sleep 5, Event.logReconnect] ++ t, ?_⟩
        rw [ht]
        simp

/-- A sleep recorded in the first-iteration block of the reconnect loop is a
5-second sleep (or was already in the trace). -/
theorem sleep_mem_prefix (evs : List Event) (first : Bool) (n : Nat)
    (h : Event.sleep n ∈ ((if first then evs else evs ++ [Event.sleep 5])
        ++ [Event.logReconnect])) :
    Event.sleep n ∈ evs ∨ n = 5 := by
  cases first <;> simp at h <;> tauto

/-- The reconnect loop only ever adds 5-second sleeps to the event trace. -/
theorem fcLoop_sleep5 (st : Pool) (d : Driver) (m : Nat) (first : Bool) (w : World)
    (evs : List Event) (w2 : World) (evs2 : List Event) (r : Except PoolError Unit)
    (h : st.fcLoop d m first w evs = some (w2, evs2, r)) :
    ∀ n, Event.sleep n ∈ evs2 → Event.sleep n ∈ evs ∨ n = 5 := by
  induction m generalizing first w evs with
  | zero => simp [Pool.fcLoop] at h
  | succ k ih =>
    unfold Pool.fcLoop at h
    dsimp only at h
    cases hc : d.connectResult w.connects with
    | fail n2 =>
      rw [hc] at h
      dsimp only at h
      simp only [Option.some.injEq, Prod.mk.injEq] at h
      intro n hn
      rw [← h.2.1] at hn
      exact sleep_mem_prefix evs first n hn
    | ok =>
      rw [hc] at h
      dsimp only at h
      by_cases hp : d.pingOk w.pings = true
      · rw [if_pos hp] at h
        rcases haf : st.afterConnect d
            { connects := w.connects + 1, execs := w.execs, pings := w.pings + 1 }
          with ⟨w3, r3⟩
        rw [haf] at h
        dsimp only at h
        simp only [Option.some.injEq, Prod.mk.injEq] at h
        intro n hn
        rw [← h.2.1] at hn
        rcases List.mem_append.mp hn with hn1 | hn1
        · exact sleep_mem_prefix evs first n hn1
        · simp at hn1
      · rw [if_neg hp] at h
        intro n hn
        rcases ih false _ _ h n hn with hn1 | hn1
        · exact sleep_mem_prefix evs first n hn1
        · exact Or.inr hn1

/-- When the reconnect loop returns normally, the last ping consumed was
successful and exactly one `afterConnect` run was recorded. -/
theorem fcLoop_ok_spec (st : Pool) (d : Driver) (m : Nat) (first : Bool) (w : World)
    (evs : List Event) (w2 : World) (evs2 : List Event) (u : Unit)
    (h : st.fcLoop d m first w evs = some (w2, evs2, Except.ok u)) :
    0 < w2.pings ∧ d.pingOk (w2.pings - 1) = true
  ∧ evs2.count Event.afterConnectRun = evs.count Event.afterConnectRun + 1 := by
  induction m generalizing first w evs with
  | zero => simp [Pool.fcLoop] at h
  | succ k ih =>
    unfold Pool.fcLoop at h
    dsimp only at h
    cases hc : d.connectResult w.connects with
    | fail n2 =>
      rw [hc] at h
      dsimp only at h
      simp only [Option.some.injEq, Prod.mk.injEq] at h
      exact absurd h.2.2 (by simp)
    | ok =>
      rw [hc] at h
      dsimp only at h
      by_cases hp : d.pingOk w.pings = true
      · rw [if_pos hp] at h
        rcases haf : st.afterConnect d
            { connects := w.connects + 1, execs := w.execs, pings := w.pings + 1 }
          with ⟨w3, r3⟩
        rw [haf] at h
        dsimp only at h
        simp only [Option.some.injEq, Prod.mk.injEq] at h
        obtain ⟨hw, hevs, hr⟩ := h
        have hping : w3.pings = w.pings + 1 := by
          have hap := afterConnect_pings st d
            { connects := w.connects + 1, execs := w.execs, pings := w.pings + 1 }
          rw [haf] at hap
          exact hap
        rw [hw] at hping
        refine ⟨by omega, ?_, ?_⟩
        · have h2 : w2.pings - 1 = w.pings := by omega
          rw [h2]
          exact hp
        · rw [← hevs]
          have hcnt : List.count Event.afterConnectRun
              (if first = true then evs else evs ++ [Event.sleep 5])
              = List.count Event.afterConnectRun evs := by
            cases first <;> simp
          simp [List.count_append, hcnt]
      · rw [if_neg hp] at h
        have := ih false _ _ h
        refine ⟨this.1, this.2.1, ?_⟩
        have hcnt := this.2.2
        have : ((if first then evs else evs ++ [Event.sleep 5])
            ++ [Event.logReconnect]).count Event.afterConnectRun
            = evs.count Event.afterConnectRun := by
          cases first <;> simp [List.count_append]
        omega

/-- C6: dereferencing an `Entry`: a NULL data pointer raises the NULL-access
error immediately; a normal return can only happen with the slot's session
alive — the last ping consumed succeeded — after a reconnect loop that retried
immediately on its first attempt (the trace begins with the reconnect log, not
a sleep), slept exactly 5 seconds before each later attempt, and ran
`afterConnect` exactly once (zero times when the initial ping succeeded); and
an exception raised by `connect` inside the loop propagates unchanged. -/
theorem entry_dereference_contract (st : Pool) (d : Driver) (fuel : Nat) (w : World) :
    (st.entryAccess d none fuel w = some (w, [], Except.error PoolError.nullAccess))
  ∧ (∀ i w1 evs v, st.entryAccess d (some i) fuel w = some (w1, evs, Except.ok v) →
      v = i
      ∧ 0 < w1.pings ∧ d.pingOk (w1.pings - 1) = true
      ∧ (∀ n, Event.sleep n ∈ evs → n = 5)
      ∧ (evs.count Event.afterConnectRun = if d.pingOk w.pings then 0 else 1)
      ∧ (d.pingOk w.pings = false → evs.head? = some Event.logReconnect))
  ∧ (∀ i n, d.pingOk w.pings = false →
      d.connectResult w.connects = ConnectResult.fail n → 0 < fuel →
      st.entryAccess d (some i) fuel w =
        some ({ w with pings := w.pings + 1, connects := w.connects + 1 },
          [Event.logReconnect], Except.error (PoolError.connectionFailed n))) := by
  refine ⟨rfl, ?_, ?_⟩
  · intro i w1 evs v h
    unfold Pool.entryAccess at h
    rcases hfc : st.forceConnected d fuel w with _ | ⟨w1t, evst, rt⟩
    · rw [hfc] at h
      exact Option.noConfusion h
    · rw [hfc] at h
      cases rt with
      | error er =>
        dsimp only at h
        simp only [Option.some.injEq, Prod.mk.injEq] at h
        exact absurd h.2.2 (by simp)
      | ok u =>
        dsimp only at h
        simp only [Option.some.injEq, Prod.mk.injEq] at h
        obtain ⟨hw, hevs, hv⟩ := h
        have hvi : v = i := by
          injection hv.symm
        unfold Pool.forceConnected at hfc
        by_cases hp : d.pingOk w.pings = true
        · rw [if_pos hp] at hfc
          simp only [Option.some.injEq, Prod.mk.injEq] at hfc
          obtain ⟨hw2, hevs2, _⟩ := hfc
          refine ⟨hvi, ?_, ?_, ?_, ?_, ?_⟩
          · rw [← hw, ← hw2]
            simp
          · rw [← hw, ← hw2]
            simpa using hp
          · intro n hn
            rw [← hevs, ← hevs2] at hn
            simp at hn
          · rw [← hevs, ← hevs2, hp]
            simp
          · intro hcontra
            rw [hp] at hcontra
            exact Bool.noConfusion hcontra
        · rw [if_neg hp] at hfc
          have hspec := fcLoop_ok_spec st d fuel true
            { w with pings := w.pings + 1 } [] w1t evst u hfc
          have hsleep := fcLoop_sleep5 st d fuel true
            { w with pings := w.pings + 1 } [] w1t evst (Except.ok u) hfc
          have hpre := fcLoop_prefix st d fuel true
            { w with pings := w.pings + 1 } [] w1t evst (Except.ok u) hfc
          have hpb : d.pingOk w.pings = false := by
            cases hb : d.pingOk w.pings with
            | true => exact absurd hb hp
            | false => rfl
          refine ⟨hvi, ?_, ?_, ?_, ?_, ?_⟩
          · rw [← hw]
            exact hspec.1
          · rw [← hw]
            exact hspec.2.1
          · intro n hn
            rw [← hevs] at hn
            rcases hsleep n hn with hn1 | hn1
            · simp at hn1
            · exact hn1
          · rw [← hevs, hpb]
            simpa using hspec.2.2
          · intro _
            obtain ⟨t, ht⟩ := hpre
            rw [← hevs, ht]
            simp
  · intro i n hp hcf hfuel
    obtain ⟨m, rfl⟩ : ∃ m, fuel = m + 1 := ⟨fuel - 1, by omega⟩
    unfold Pool.entryAccess Pool.forceConnected Pool.fcLoop
    simp [hp, hcf]

/-- Witness for `entry_dereference_contract` at a concrete input: a dead
session whose reconnect also fails propagates the driver exception. -/
theorem entry_dereference_contract_witness :
    dDead.pingOk w0.pings = false
  ∧ dDead.connectResult w0.connects = ConnectResult.fail 2002
  ∧ (0 : Nat) < 1
  ∧ stOneIdle.entryAccess dDead (some 0) 1 w0 =
      some ({ w0 with pings := w0.pings + 1, connects := w0.connects + 1 },
        [Event.logReconnect], Except.error (PoolError.connectionFailed 2002)) :=
  ⟨rfl, rfl, by decide,
    (entry_dereference_contract stOneIdle dDead 1 w0).2.2 0 2002 rfl rfl (by decide)⟩

/-- Counting referring handles distributes over cons. -/
theorem countRefs_cons (h : Nat) (e : EntryData) (hs : List (Nat × EntryData))
    (s : Nat) :
    countRefs ((h, e) :: hs) s
      = countRefs hs s + (if e = some s then 1 else 0) := by
  unfold countRefs
  by_cases he : e = some s <;> simp [List.filter_cons, he]

/-- Evaluating a ref-count adjustment through a data pointer. -/
theorem bumpH_apply (r : Nat → Int) (e : EntryData) (k : Int) (s : Nat) :
    bumpH r e k s = r s + (if e = some s then k else 0) := by
  cases e with
  | none => simp [bumpH]
  | some s0 =>
    unfold bumpH
    by_cases h : s0 = s
    · subst h
      simp
    · simp [h]
      intro h2
      exact absurd h2.symm h

/-- Erasing the first handle with id `h` removes its contribution to the
count. -/
theorem countRefs_eraseP (hs : List (Nat × EntryData)) (h : Nat) (e : EntryData)
    (hf : hfind hs h = some e) (s : Nat) :
    countRefs (hs.eraseP (fun p => p.1 == h)) s
      = countRefs hs s - (if e = some s then 1 else 0) := by
  induction hs with
  | nil => simp [hfind] at hf
  | cons p t ih =>
    by_cases hp : p.1 = h
    · have hfe : p.2 = e := by
        unfold hfind at hf
        simp [List.find?_cons, hp] at hf
        exact hf
      have : (p :: t).eraseP (fun q => q.1 == h) = t := by
        simp [List.eraseP_cons, hp]
      rw [this]
      rcases p with ⟨p1, p2⟩
      rw [countRefs_cons]
      simp only at hfe
      rw [hfe]
      omega
    · have : (p :: t).eraseP (fun q => q.1 == h) = p :: t.eraseP (fun q => q.1 == h) := by
        simp [List.eraseP_cons, hp]
      rw [this]
      have hft : hfind t h = some e := by
        unfold hfind at hf ⊢
        simp [List.find?_cons, hp] at hf ⊢
        exact hf
      rcases p with ⟨p1, p2⟩
      rw [countRefs_cons, countRefs_cons, ih hft]
      omega

/-- A count of zero means no live handle refers to the Slot. -/
theorem countRefs_eq_zero (hs : List (Nat × EntryData)) (s : Nat) :
    countRefs hs s = 0 ↔ ∀ p ∈ hs, p.2 ≠ some s := by
  unfold countRefs
  rw [Nat.cast_eq_zero, List.length_eq_zero, List.filter_eq_nil_iff]
  constructor
  · intro h p hp
    have := h p hp
    simpa using this
  · intro h p hp
    simpa using h p hp

/-- One step of the `Entry` lifetime model preserves the ref-count
conservation invariant. -/
theorem hstep_inv (st : HHeap) (op : HOp) (st2 : HHeap)
    (h : hstep st op = some st2)
    (hi : ∀ s, st.refs s = countRefs st.handles s) :
    ∀ s, st2.refs s = countRefs st2.handles s := by
  intro s
  cases op with
  | mkEmpty =>
    unfold hstep at h
    simp only [Option.some.injEq] at h
    rw [← h]
    dsimp only
    rw [countRefs_cons]
    simp [hi s]
  | mkSlot s0 =>
    unfold hstep at h
    simp only [Option.some.injEq] at h
    rw [← h]
    dsimp only
    rw [countRefs_cons, bumpH_apply, hi s]
  | copy h0 =>
    unfold hstep at h
    dsimp only at h
    cases hf : hfind st.handles h0 with
    | none => rw [hf] at h; exact Option.noConfusion h
    | some e =>
      rw [hf] at h
      dsimp only at h
      simp only [Option.some.injEq] at h
      rw [← h]
      dsimp only
      rw [countRefs_cons, bumpH_apply, hi s]
  | assign dst src =>
    unfold hstep at h
    dsimp only at h
    cases hfd : hfind st.handles dst with
    | none => rw [hfd] at h; exact Option.noConfusion h
    | some eOld =>
      cases hfs : hfind st.handles src with
      | none => rw [hfd, hfs] at h; exact Option.noConfusion h
      | some eNew =>
        rw [hfd, hfs] at h
        dsimp only at h
        simp only [Option.some.injEq] at h
        rw [← h]
        dsimp only
        rw [countRefs_cons, countRefs_eraseP st.handles dst eOld hfd,
          bumpH_apply, bumpH_apply, hi s]
        split_ifs <;> omega
  | destroy h0 =>
    unfold hstep at h
    dsimp only at h
    cases hf : hfind st.handles h0 with
    | none => rw [hf] at h; exact Option.noConfusion h
    | some e =>
      rw [hf] at h
      dsimp only at h
      simp only [Option.some.injEq] at h
      rw [← h]
      dsimp only
      rw [countRefs_eraseP st.handles h0 e hf, bumpH_apply, hi s]
      split_ifs <;> omega

/-- Running a sequence of `Entry` operations preserves the conservation
invariant. -/
theorem hrun_inv (ops : List HOp) (st0 : HHeap) (st : HHeap)
    (h : hrun ops st0 = some st)
    (hi : ∀ s, st0.refs s = countRefs st0.handles s) :
    ∀ s, st.refs s = countRefs st.handles s := by
  induction ops generalizing st0 with
  | nil =>
    unfold hrun at h
    simp only [Option.some.injEq] at h
    rw [← h]
    exact hi
  | cons op ops ih =>
    unfold hrun at h
    cases hs : hstep st0 op with
    | none => rw [hs] at h; exact Option.noConfusion h
    | some st1 =>
      rw [hs] at h
      dsimp only [Option.bind] at h
      exact ih st1 h (hstep_inv st0 op st1 hs hi)

/-- C2: after any finite valid sequence of `Entry` constructions, copies,
copy-assignments (self-assignment included) and destructions, each Slot's ref
count equals the number of live non-empty `Entry` objects referring to it, and
it is zero exactly when no live `Entry` refers to the Slot any more. -/
theorem entry_refcount_conservation (ops : List HOp) (st : HHeap)
    (h : hrun ops hinit = some st) (s : Nat) :
    st.refs s = countRefs st.handles s
  ∧ (st.refs s = 0 ↔ ∀ p ∈ st.handles, p.2 ≠ some s) := by
  have hbase : ∀ s2, hinit.refs s2 = countRefs hinit.handles s2 := by
    intro s2
    simp [hinit, countRefs]
  have hinv := hrun_inv ops hinit st h hbase
  refine ⟨hinv s, ?_⟩
  rw [hinv s]
  exact countRefs_eq_zero st.handles s

/-- Witness for `entry_refcount_conservation` at a concrete input: the history
`opsW` (construct from Slot 3, copy, self-assign, default-construct, destroy
all three) runs to completion and the invariant holds for Slot 3 afterwards. -/
theorem entry_refcount_conservation_witness :
    hrun opsW hinit = some stW
  ∧ (stW.refs 3 = countRefs stW.handles 3
      ∧ (stW.refs 3 = 0 ↔ ∀ p ∈ stW.handles, p.2 ≠ some 3)) :=
  ⟨rfl, entry_refcount_conservation opsW stW rfl 3⟩
